import Mathlib

/-!
Verification of the Bindu AG-UI Bridge run orchestration

A shallow embedding of the AG-UI bridge core (`src/agui-bridge/src`):
the event types and builder (`events/types.ts`, `events/builder.ts`),
the SSE sink close behaviour (`events/sse.ts`), the configuration record
(`config.ts`), and the run handler (`handlers/run.ts`).

Modelling conventions:
* JavaScript optional fields become `Option`; JS truthiness of a string
  (`!s` / `s || d`) is the test `s ≠ ""` on present values.
* The wall-clock `timestamp` stamped by `AGUIEventBuilder.base`
  (`Date.now()`) is real-time and is omitted from the event records;
  no claim here depends on it.
* `crypto.randomUUID()` calls are injected: one string for the task id,
  and a stream `genMsgId : Nat → String` for per-artifact message ids
  (the n-th generated id is `genMsgId n`).
* The two remote calls of `BinduClient` are injected as results:
  `submit` for `sendMessage` (its returned task is ignored by the
  handler) and `polls i` for the i-th `getTask` call; a thrown
  `BinduRPCError` is the `Except.error` carrying its `message`.
* Sink writes are assumed to succeed (the traces below are the event
  sequences under non-failing writes); the final `sse.close()` of the
  handler's `finally` block is modelled separately for the close claims.
* `history`/`metadata` fields of `BinduTask` and `metadata` of artifact
  parts are never read by the handler and are omitted.
-/

namespace AGUIBridge

/-- Bindu task states (`events/types.ts`): the TS string literals
`submitted`, `working`, `input-required`, `auth-required`, `completed`,
`canceled`, `failed`. -/
inductive BinduTaskState where
  | submitted
  | working
  | inputRequired
  | authRequired
  | completed
  | canceled
  | failed
deriving DecidableEq, Repr

/-- The `TERMINAL_STATES` list from `events/types.ts`: states that stop polling. -/
def TERMINAL_STATES : List BinduTaskState :=
  [.completed, .canceled, .failed]

/-- The test `TERMINAL_STATES.includes s` as used in `handlers/run.ts`. -/
def isTerminalState (s : BinduTaskState) : Bool :=
  TERMINAL_STATES.contains s

/-- The payload part of each AG-UI event variant (`events/types.ts`),
minus the base fields factored into `AGUIEvent`. -/
inductive AGUIEventPayload where
  | runStarted
  | runFinished
  | runError (message : String) (code : Option Int)
  | stateDelta (bindu_state : BinduTaskState)
  | textMessageStart (message_id : String) (role : String)
  | textMessageContent (message_id : String) (content : String)
  | textMessageEnd (message_id : String)
deriving DecidableEq, Repr

/-- An AG-UI event: the `BaseEvent` fields `thread_id` / `run_id`
(timestamp omitted, see the module docstring) plus the variant payload. -/
structure AGUIEvent where
  thread_id : String
  run_id : String
  payload : AGUIEventPayload
deriving DecidableEq, Repr

/-- The `AGUIEventBuilder` class (`events/builder.ts`): holds the constructor-bound
`threadId` and `runId` stamped onto every event it creates. -/
structure AGUIEventBuilder where
  threadId : String
  runId : String
deriving DecidableEq, Repr

/-- Method `AGUIEventBuilder.base`: the shared base-field construction. -/
def AGUIEventBuilder.base (eb : AGUIEventBuilder) (p : AGUIEventPayload) : AGUIEvent :=
  { thread_id := eb.threadId, run_id := eb.runId, payload := p }

def AGUIEventBuilder.runStarted (eb : AGUIEventBuilder) : AGUIEvent :=
  eb.base .runStarted

def AGUIEventBuilder.runFinished (eb : AGUIEventBuilder) : AGUIEvent :=
  eb.base .runFinished

def AGUIEventBuilder.runError (eb : AGUIEventBuilder) (message : String)
    (code : Option Int) : AGUIEvent :=
  eb.base (.runError message code)

def AGUIEventBuilder.stateDelta (eb : AGUIEventBuilder) (s : BinduTaskState) : AGUIEvent :=
  eb.base (.stateDelta s)

def AGUIEventBuilder.textMessageStart (eb : AGUIEventBuilder) (messageId : String)
    (role : String) : AGUIEvent :=
  eb.base (.textMessageStart messageId role)

def AGUIEventBuilder.textMessageContent (eb : AGUIEventBuilder) (messageId : String)
    (content : String) : AGUIEvent :=
  eb.base (.textMessageContent messageId content)

def AGUIEventBuilder.textMessageEnd (eb : AGUIEventBuilder) (messageId : String) : AGUIEvent :=
  eb.base (.textMessageEnd messageId)

/-- Artifact part kinds (`clients/bindu.ts`): `text`, `file`, `data`. -/
inductive BinduPartKind where
  | text
  | file
  | data
deriving DecidableEq, Repr

/-- Record `BinduArtifactPart` (`clients/bindu.ts`): `kind` plus optional `text`. -/
structure BinduArtifactPart where
  kind : BinduPartKind
  text : Option String
deriving DecidableEq, Repr

/-- Record `BinduArtifact` (`clients/bindu.ts`). -/
structure BinduArtifact where
  artifact_id : String
  name : Option String
  parts : List BinduArtifactPart
deriving DecidableEq, Repr

/-- The `status` field of a `BinduTask`; the handler casts `status.state`
to `BinduTaskState`, so the state is modelled by the enumeration. -/
structure BinduTaskStatus where
  state : BinduTaskState
  timestamp : String
deriving DecidableEq, Repr

/-- Record `BinduTask` (`clients/bindu.ts`), restricted to the fields the run
handler reads. -/
structure BinduTask where
  id : String
  contextId : String
  status : BinduTaskStatus
  artifacts : Option (List BinduArtifact)
deriving DecidableEq, Repr

/-- AG-UI message roles (`handlers/run.ts`). -/
inductive AGUIRole where
  | user
  | assistant
  | system
deriving DecidableEq, Repr

/-- Record `AGUIMessage` (`handlers/run.ts`). -/
structure AGUIMessage where
  role : AGUIRole
  content : String
deriving DecidableEq, Repr

/-- The inline `config` object of `AGUIRunRequest`. -/
structure AGUIRunRequestConfig where
  polling_interval_ms : Option Nat
  timeout_ms : Option Nat
deriving DecidableEq, Repr

/-- Record `AGUIRunRequest` (`handlers/run.ts`); fields a JSON body may omit are
`Option` (including `thread_id` and `messages`, whose absence the handler
must reject). -/
structure AGUIRunRequest where
  thread_id : Option String
  run_id : Option String
  messages : Option (List AGUIMessage)
  config : Option AGUIRunRequestConfig
deriving DecidableEq, Repr

/-- Record `BridgeConfig` (`config.ts`). -/
structure BridgeConfig where
  binduUrl : String
  port : Nat
  pollIntervalMs : Nat
  requestTimeoutMs : Nat
  maxPollAttempts : Nat
deriving DecidableEq, Repr

/-- The process defaults of `config.ts` when no environment override is set. -/
def defaultBridgeConfig : BridgeConfig :=
  { binduUrl := "http://localhost:3773", port := 8080, pollIntervalMs := 500,
    requestTimeoutMs := 30000, maxPollAttempts := 120 }

/-- JS truthiness of an optional string: `undefined` and `""` are falsy. -/
def optStringTruthy : Option String → Bool
  | none => false
  | some s => if s = "" then false else true

/-- Resolution `body.run_id || crypto.randomUUID()` (run.ts line 78): truthiness-based
fallback, so an empty-string `run_id` also triggers the generated id. -/
def resolveTaskId (runId : Option String) (uuid : String) : String :=
  match runId with
  | some s => if s = "" then uuid else s
  | none => uuid

/-- Ceiling division `Math.ceil (a / b)` for naturals with `b > 0`; `b = 0` (JS `Infinity`)
lies outside this Nat model and is never produced by the claims below. -/
def ceilDivNat (a b : Nat) : Nat :=
  (a + b - 1) / b

/-- Resolution `body.config?.polling_interval_ms ?? config.pollIntervalMs`
(run.ts line 82): nullish coalescing, so a present `0` is used as-is. -/
def resolvePollIntervalMs (body : AGUIRunRequest) (config : BridgeConfig) : Nat :=
  (body.config.bind (fun c => c.polling_interval_ms)).getD config.pollIntervalMs

/-- Resolution `body.config?.timeout_ms ? Math.ceil(timeout_ms / pollIntervalMs)
: config.maxPollAttempts` (run.ts lines 83-85): a truthiness test, so a
present `timeout_ms = 0` falls back to the process default. -/
def resolveMaxPollAttempts (body : AGUIRunRequest) (config : BridgeConfig)
    (pollIntervalMs : Nat) : Nat :=
  match body.config.bind (fun c => c.timeout_ms) with
  | some t => if t = 0 then config.maxPollAttempts else ceilDivNat t pollIntervalMs
  | none => config.maxPollAttempts

/-- The start/content/ended triple emitted for one selected artifact text. -/
def tripleEvents (eb : AGUIEventBuilder) (msgId : String) (t : String) : List AGUIEvent :=
  [eb.textMessageStart msgId "assistant",
   eb.textMessageContent msgId t,
   eb.textMessageEnd msgId]

/-- The inner loop of `emitArtifactsAsMessages` over one artifact's parts:
`if (part.kind === 'text' && part.text)` selects text parts with a present
non-empty text; `ctr` counts the `crypto.randomUUID()` calls made so far. -/
def emitPartEvents (eb : AGUIEventBuilder) (gen : Nat → String) :
    Nat → List BinduArtifactPart → List AGUIEvent × Nat
  | ctr, [] => ([], ctr)
  | ctr, part :: rest =>
    match part.kind, part.text with
    | .text, some t =>
      if t = "" then
        emitPartEvents eb gen ctr rest
      else
        let out := emitPartEvents eb gen (ctr + 1) rest
        (tripleEvents eb (gen ctr) t ++ out.1, out.2)
    | _, _ => emitPartEvents eb gen ctr rest

/-- The outer loop of `emitArtifactsAsMessages` over the artifacts. -/
def emitArtifactEvents (eb : AGUIEventBuilder) (gen : Nat → String) :
    Nat → List BinduArtifact → List AGUIEvent × Nat
  | ctr, [] => ([], ctr)
  | ctr, artifact :: rest =>
    let outP := emitPartEvents eb gen ctr artifact.parts
    let outR := emitArtifactEvents eb gen outP.2 rest
    (outP.1 ++ outR.1, outR.2)

/-- Function `emitArtifactsAsMessages` (run.ts lines 35-53): the guard
`if (!task.artifacts?.length) return` covers a missing and an empty
artifact list, then both loops run. -/
def emitArtifactsAsMessages (eb : AGUIEventBuilder) (gen : Nat → String)
    (task : BinduTask) : List AGUIEvent :=
  match task.artifacts with
  | none => []
  | some arts => if arts.isEmpty then [] else (emitArtifactEvents eb gen 0 arts).1

/-- The terminal-state branch of the poll loop (run.ts lines 145-158). -/
def terminalStateEvents (eb : AGUIEventBuilder) (gen : Nat → String)
    (s : BinduTaskState) (task : BinduTask) : List AGUIEvent :=
  if s = .completed then
    emitArtifactsAsMessages eb gen task ++ [eb.runFinished]
  else if s = .failed then
    [eb.runError "Task failed" none]
  else if s = .canceled then
    [eb.runError "Task canceled" (some (-32000))]
  else []

/-- The poll loop of `handleAGUIRun` (run.ts lines 121-165) together with
the post-loop timeout check: `idx` is the current `pollCount`, `fuel` is
`maxPollAttempts - pollCount`.  Returns the emitted events and the number
of `getTask` calls issued.  The `fuel = 0` case is the loop exiting with
`pollCount >= maxPollAttempts`, where the code emits `Polling timeout`
unless the last observed state was terminal; a `getTask` failure or a
terminal state breaks out of the loop without the timeout check firing
(there `pollCount` was not incremented, so it stays below the bound). -/
def pollLoop (eb : AGUIEventBuilder) (gen : Nat → String)
    (polls : Nat → Except String BinduTask) :
    Nat → Nat → BinduTaskState → List AGUIEvent × Nat
  | _, 0, lastState =>
    (if isTerminalState lastState then [] else [eb.runError "Polling timeout" none], 0)
  | idx, fuel + 1, lastState =>
    match polls idx with
    | .error msg => ([eb.runError msg none], 1)
    | .ok task =>
      let currentState := task.status.state
      let deltas : List AGUIEvent :=
        if currentState = lastState then [] else [eb.stateDelta currentState]
      if isTerminalState currentState then
        (deltas ++ terminalStateEvents eb gen currentState task, 1)
      else
        let out := pollLoop eb gen polls (idx + 1) fuel currentState
        (deltas ++ out.1, out.2 + 1)

/-- The observable outcome of one run's background task: the events
written to the sink, whether `sendMessage` was invoked, and how many
`getTask` calls were issued.  The sink is closed after the last event
(the handler's `finally` block). -/
structure RunTrace where
  events : List AGUIEvent
  submitCalled : Bool
  getTaskCalls : Nat
deriving DecidableEq, Repr

/-- The injected nondeterminism of one run: generated ids and the results
of the remote calls. -/
structure RunEnv where
  uuidTask : String
  genMsgId : Nat → String
  submit : Except String Unit
  polls : Nat → Except String BinduTask

/-- The filter predicate (role equals user) of run.ts line 97. -/
def isUserMessage (m : AGUIMessage) : Bool :=
  match m.role with
  | .user => true
  | _ => false

/-- The detached background task of `handleAGUIRun` (run.ts lines 95-181):
filter user messages; if none, emit one run-error and stop; otherwise
submit (a submit failure is caught by the outer catch, which emits a
run-error carrying its message), emit run-started, and run the poll loop. -/
def runBackground (eb : AGUIEventBuilder) (env : RunEnv)
    (msgs : List AGUIMessage) (maxPollAttempts : Nat) : RunTrace :=
  if (msgs.filter isUserMessage).isEmpty then
    { events := [eb.runError "No user messages to send" none],
      submitCalled := false, getTaskCalls := 0 }
  else
    match env.submit with
    | .error msg =>
      { events := [eb.runError msg none], submitCalled := true, getTaskCalls := 0 }
    | .ok _ =>
      { events := eb.runStarted ::
          (pollLoop eb env.genMsgId env.polls 0 maxPollAttempts .submitted).1,
        submitCalled := true,
        getTaskCalls := (pollLoop eb env.genMsgId env.polls 0 maxPollAttempts .submitted).2 }

/-- The handler's synchronous outcome: a 400 JSON rejection before any
stream exists, or an opened (and eventually closed) event stream. -/
inductive RunResponse where
  | validationError (message : String) (status : Nat)
  | stream (trace : RunTrace)
deriving DecidableEq, Repr

/-- Handler `handleAGUIRun` (run.ts lines 60-186): JSON-body validation, id and
polling-config resolution, then the background task writing into the
stream that is returned immediately. -/
def handleAGUIRun (body : AGUIRunRequest) (config : BridgeConfig)
    (env : RunEnv) : RunResponse :=
  if optStringTruthy body.thread_id = false then
    .validationError "thread_id is required" 400
  else
    match body.messages with
    | none => .validationError "messages array is required and cannot be empty" 400
    | some msgs =>
      if msgs.isEmpty then
        .validationError "messages array is required and cannot be empty" 400
      else
        .stream (runBackground
          { threadId := body.thread_id.getD "",
            runId := resolveTaskId body.run_id env.uuidTask }
          env msgs
          (resolveMaxPollAttempts body config (resolvePollIntervalMs body config)))

/-!
Derived predicates and claim-side definitions
-/

/-- The state carried by a state-delta event, if the event is one. -/
def stateOfEvent (e : AGUIEvent) : Option BinduTaskState :=
  match e.payload with
  | .stateDelta s => some s
  | _ => none

/-- Run-finished and run-error are the terminal stream events. -/
def isTerminalEvent (e : AGUIEvent) : Bool :=
  match e.payload with
  | .runFinished => true
  | .runError _ _ => true
  | _ => false

/-- Whether an event is a state-delta event. -/
def isStateDeltaEvent (e : AGUIEvent) : Bool :=
  (stateOfEvent e).isSome

/-- Whether an event is a state-delta carrying a terminal task state. -/
def isTerminalDeltaEvent (e : AGUIEvent) : Bool :=
  match stateOfEvent e with
  | some s => isTerminalState s
  | none => false

/-- The sequence of task states carried by the state-delta events of a
trace, in emission order. -/
def deltaStates (es : List AGUIEvent) : List BinduTaskState :=
  es.filterMap stateOfEvent

/-- After the first state-delta carrying a terminal state, no further
state-delta event occurs. -/
def noDeltaAfterTerminalDelta : List AGUIEvent → Bool
  | [] => true
  | e :: rest =>
    if isTerminalDeltaEvent e then rest.all (fun x => !(isStateDeltaEvent x))
    else noDeltaAfterTerminalDelta rest

/-- The event list ends with exactly one terminal event: its last element
is run-finished or run-error and no earlier element is. -/
def endsWithOneTerminal (es : List AGUIEvent) : Prop :=
  ∃ pre e, es = pre ++ [e] ∧ isTerminalEvent e = true ∧
    ∀ x ∈ pre, isTerminalEvent x = false

/-- An event carries the builder's identity pair. -/
def stampedBy (eb : AGUIEventBuilder) (e : AGUIEvent) : Prop :=
  e.thread_id = eb.threadId ∧ e.run_id = eb.runId

/-- The selection the claim about artifact expansion describes: a part
yields its text exactly when its kind is text and its text is present and
non-empty. -/
def selectTextPart (part : BinduArtifactPart) : Option String :=
  match part.kind, part.text with
  | .text, some t => if t = "" then none else some t
  | _, _ => none

/-- The texts selected from a list of artifacts, in artifact order then
part order. -/
def selectedTextsOfArtifacts (arts : List BinduArtifact) : List String :=
  arts.flatMap fun artifact => artifact.parts.filterMap selectTextPart

/-- Modelled from the claim's words: the texts that produce
started/content/ended triples, in artifact order then part order. -/
def claimedArtifactTexts (task : BinduTask) : List String :=
  selectedTextsOfArtifacts (task.artifacts.getD [])

/-!
Concrete scenario inputs
-/

/-- The request of the happy-path scenario:
`{thread_id: "t1", messages: [{role:"user", content:"hi"}]}`. -/
def body4 : AGUIRunRequest :=
  { thread_id := some "t1", run_id := none,
    messages := some [{ role := .user, content := "hi" }], config := none }

/-- First poll result of the scenario: state `working`, no artifacts. -/
def workingTask : BinduTask :=
  { id := "u-task", contextId := "t1",
    status := { state := .working, timestamp := "ts1" }, artifacts := none }

/-- Second poll result of the scenario: state `completed` with one
artifact holding one text part `"hello"`. -/
def completedTask : BinduTask :=
  { id := "u-task", contextId := "t1",
    status := { state := .completed, timestamp := "ts2" },
    artifacts := some [{ artifact_id := "a1", name := none, parts := [{ kind := .text, text := some "hello" }] }] }

/-- Scenario environment: submission succeeds, first poll `working`,
every later poll `completed`. -/
def env4 : RunEnv :=
  { uuidTask := "u-task", genMsgId := fun n => "m" ++ toString n,
    submit := .ok (), polls := fun i => if i = 0 then .ok workingTask else .ok completedTask }

/-- The builder the handler constructs for `body4` under `env4`. -/
def builder0 : AGUIEventBuilder :=
  { threadId := "t1", runId := "u-task" }

/-- The trace the handler produces on the happy-path scenario. -/
def trace4 : RunTrace :=
  { events :=
      [builder0.runStarted,
       builder0.stateDelta .working,
       builder0.stateDelta .completed,
       builder0.textMessageStart "m0" "assistant",
       builder0.textMessageContent "m0" "hello",
       builder0.textMessageEnd "m0",
       builder0.runFinished],
    submitCalled := true, getTaskCalls := 2 }

/-- A valid request whose only message has role `assistant`. -/
def assistantOnlyBody : AGUIRunRequest :=
  { thread_id := some "t", run_id := none,
    messages := some [{ role := .assistant, content := "x" }], config := none }

/-- An environment whose remote results are never consulted. -/
def idleEnv : RunEnv :=
  { uuidTask := "r", genMsgId := fun _ => "m",
    submit := .ok (), polls := fun _ => .error "unused" }

/-- A request with no `thread_id` field. -/
def noThreadBody : AGUIRunRequest :=
  { thread_id := none, run_id := none,
    messages := some [{ role := .user, content := "hi" }], config := none }

/-- The scenario request with `run_id` present but equal to `""`. -/
def emptyRunIdBody : AGUIRunRequest :=
  { thread_id := some "t1", run_id := some "",
    messages := some [{ role := .user, content := "hi" }], config := none }

/-- A request supplying `timeout_ms = 0` (present but falsy in JS). -/
def timeoutZeroBody : AGUIRunRequest :=
  { thread_id := some "t1", run_id := none,
    messages := some [{ role := .user, content := "hi" }],
    config := some { polling_interval_ms := none, timeout_ms := some 0 } }

/-- A request supplying `polling_interval_ms = 250` and `timeout_ms = 1000`. -/
def timeoutBody : AGUIRunRequest :=
  { thread_id := some "t1", run_id := none,
    messages := some [{ role := .user, content := "hi" }],
    config := some { polling_interval_ms := some 250, timeout_ms := some 1000 } }

/-- A message-id generator for concrete runs. -/
def gen0 : Nat → String :=
  fun n => "m" ++ toString n

/-- State of the writable-stream writer underlying the SSE sink. -/
inductive WriterState where
  | writable
  | closed
  | errored
deriving DecidableEq, Repr

/-- Web Streams `writer.close()`: resolves (closing the stream) when it is
writable; rejects when the stream is already closed or errored. -/
def writerClose : WriterState → Except String WriterState
  | .writable => .ok .closed
  | .closed => .error "Writer is closed"
  | .errored => .error "Writer is errored"

/-- Method `createSSEStream(...).close` (events/sse.ts lines 37-39): it awaits
`writer.close()` directly, propagating any rejection to its caller. -/
def sseClose (w : WriterState) : Except String WriterState :=
  writerClose w

/-- The handler's `finally` block (run.ts lines 174-180):
`try { await sse.close() } catch { }` — a close failure is swallowed and
the writer keeps its previous state. -/
def finallyClose (w : WriterState) : WriterState :=
  match sseClose w with
  | .ok w2 => w2
  | .error _ => w

/-!
Basic event lemmas
-/

theorem stampedBy_base (eb : AGUIEventBuilder) (p : AGUIEventPayload) :
    stampedBy eb (eb.base p) :=
  ⟨rfl, rfl⟩

theorem isTerminalEvent_base (eb : AGUIEventBuilder) (p : AGUIEventPayload) :
    isTerminalEvent (eb.base p) = isTerminalEvent { thread_id := "", run_id := "", payload := p } :=
  rfl

theorem tripleEvents_props (eb : AGUIEventBuilder) (msgId t : String) :
    ∀ e ∈ tripleEvents eb msgId t,
      stampedBy eb e ∧ isTerminalEvent e = false ∧ stateOfEvent e = none := by
  intro e he
  simp only [tripleEvents, List.mem_cons, List.mem_singleton, List.not_mem_nil, or_false] at he
  rcases he with rfl | rfl | rfl <;> exact ⟨⟨rfl, rfl⟩, rfl, rfl⟩

theorem emitPartEvents_props (eb : AGUIEventBuilder) (gen : Nat → String)
    (ps : List BinduArtifactPart) :
    ∀ ctr, ∀ e ∈ (emitPartEvents eb gen ctr ps).1,
      stampedBy eb e ∧ isTerminalEvent e = false ∧ stateOfEvent e = none := by
  induction ps with
  | nil =>
    intro ctr e he
    simp [emitPartEvents] at he
  | cons p rest ih =>
    intro ctr e he
    obtain ⟨k, txt⟩ := p
    cases k with
    | text =>
      cases txt with
      | none => exact ih ctr e he
      | some t =>
        by_cases ht : t = ""
        · simp only [emitPartEvents, ht, if_pos rfl] at he
          exact ih ctr e he
        · simp only [emitPartEvents, if_neg ht, List.mem_append] at he
          rcases he with he | he
          · exact tripleEvents_props eb (gen ctr) t e he
          · exact ih (ctr + 1) e he
    | file => exact ih ctr e he
    | data => exact ih ctr e he

theorem emitArtifactEvents_props (eb : AGUIEventBuilder) (gen : Nat → String)
    (arts : List BinduArtifact) :
    ∀ ctr, ∀ e ∈ (emitArtifactEvents eb gen ctr arts).1,
      stampedBy eb e ∧ isTerminalEvent e = false ∧ stateOfEvent e = none := by
  induction arts with
  | nil =>
    intro ctr e he
    simp [emitArtifactEvents] at he
  | cons a rest ih =>
    intro ctr e he
    simp only [emitArtifactEvents, List.mem_append] at he
    rcases he with he | he
    · exact emitPartEvents_props eb gen a.parts ctr e he
    · exact ih _ e he

theorem emitArtifactsAsMessages_eq_none (eb : AGUIEventBuilder) (gen : Nat → String)
    (task : BinduTask) (h : task.artifacts = none) :
    emitArtifactsAsMessages eb gen task = [] := by
  unfold emitArtifactsAsMessages
  rw [h]

theorem emitArtifactsAsMessages_eq_some (eb : AGUIEventBuilder) (gen : Nat → String)
    (task : BinduTask) (arts : List BinduArtifact) (h : task.artifacts = some arts) :
    emitArtifactsAsMessages eb gen task =
      if arts.isEmpty then [] else (emitArtifactEvents eb gen 0 arts).1 := by
  unfold emitArtifactsAsMessages
  rw [h]

theorem emitArtifactsAsMessages_props (eb : AGUIEventBuilder) (gen : Nat → String)
    (task : BinduTask) :
    ∀ e ∈ emitArtifactsAsMessages eb gen task,
      stampedBy eb e ∧ isTerminalEvent e = false ∧ stateOfEvent e = none := by
  intro e he
  cases harts : task.artifacts with
  | none => rw [emitArtifactsAsMessages_eq_none eb gen task harts] at he; simp at he
  | some arts =>
    rw [emitArtifactsAsMessages_eq_some eb gen task arts harts] at he
    split at he
    · simp at he
    · exact emitArtifactEvents_props eb gen arts 0 e he

theorem terminalStateEvents_props (eb : AGUIEventBuilder) (gen : Nat → String)
    (s : BinduTaskState) (task : BinduTask) :
    ∀ e ∈ terminalStateEvents eb gen s task,
      stampedBy eb e ∧ stateOfEvent e = none := by
  intro e he
  unfold terminalStateEvents at he
  split at he
  · rcases List.mem_append.mp he with he | he
    · obtain ⟨h1, _, h3⟩ := emitArtifactsAsMessages_props eb gen task e he
      exact ⟨h1, h3⟩
    · simp only [List.mem_singleton] at he
      subst he; exact ⟨⟨rfl, rfl⟩, rfl⟩
  · split at he
    · simp only [List.mem_singleton] at he
      subst he; exact ⟨⟨rfl, rfl⟩, rfl⟩
    · split at he
      · simp only [List.mem_singleton] at he
        subst he; exact ⟨⟨rfl, rfl⟩, rfl⟩
      · simp at he

/-!
Terminal-event structure lemmas
-/

theorem endsWithOneTerminal_single (e : AGUIEvent) (h : isTerminalEvent e = true) :
    endsWithOneTerminal [e] :=
  ⟨[], e, rfl, h, by intro x hx; simp at hx⟩

theorem endsWithOneTerminal_prepend (ds es : List AGUIEvent)
    (hds : ∀ x ∈ ds, isTerminalEvent x = false)
    (hes : endsWithOneTerminal es) : endsWithOneTerminal (ds ++ es) := by
  obtain ⟨pre, e, rfl, he, hpre⟩ := hes
  refine ⟨ds ++ pre, e, by simp, he, ?_⟩
  intro x hx
  rcases List.mem_append.mp hx with hx | hx
  · exact hds x hx
  · exact hpre x hx

theorem terminalStateEvents_ends (eb : AGUIEventBuilder) (gen : Nat → String)
    (s : BinduTaskState) (task : BinduTask) (hs : isTerminalState s = true) :
    endsWithOneTerminal (terminalStateEvents eb gen s task) := by
  cases s with
  | completed =>
    unfold terminalStateEvents
    rw [if_pos rfl]
    refine endsWithOneTerminal_prepend _ _ ?_ (endsWithOneTerminal_single _ rfl)
    intro x hx
    exact (emitArtifactsAsMessages_props eb gen task x hx).2.1
  | failed => exact endsWithOneTerminal_single _ rfl
  | canceled => exact endsWithOneTerminal_single _ rfl
  | submitted => simp [isTerminalState, TERMINAL_STATES] at hs
  | working => simp [isTerminalState, TERMINAL_STATES] at hs
  | inputRequired => simp [isTerminalState, TERMINAL_STATES] at hs
  | authRequired => simp [isTerminalState, TERMINAL_STATES] at hs

/-!
State-delta bookkeeping lemmas
-/

theorem deltaStates_append (xs ys : List AGUIEvent) :
    deltaStates (xs ++ ys) = deltaStates xs ++ deltaStates ys :=
  List.filterMap_append xs ys stateOfEvent

theorem deltaStates_eq_nil (es : List AGUIEvent) (h : ∀ e ∈ es, stateOfEvent e = none) :
    deltaStates es = [] := by
  induction es with
  | nil => rfl
  | cons e rest ih =>
    have he := h e (List.mem_cons_self e rest)
    simp only [deltaStates, List.filterMap_cons, he]
    exact ih fun x hx => h x (List.mem_cons_of_mem e hx)

theorem noDeltaAfterTerminalDelta_of_none (es : List AGUIEvent)
    (h : ∀ e ∈ es, stateOfEvent e = none) : noDeltaAfterTerminalDelta es = true := by
  induction es with
  | nil => rfl
  | cons e rest ih =>
    have he := h e (List.mem_cons_self e rest)
    have hterm : isTerminalDeltaEvent e = false := by
      unfold isTerminalDeltaEvent
      rw [he]
    unfold noDeltaAfterTerminalDelta
    rw [if_neg (by simp [hterm])]
    exact ih fun x hx => h x (List.mem_cons_of_mem e hx)

theorem all_not_delta_of_none (es : List AGUIEvent)
    (h : ∀ e ∈ es, stateOfEvent e = none) :
    es.all (fun x => !(isStateDeltaEvent x)) = true := by
  rw [List.all_eq_true]
  intro x hx
  simp [isStateDeltaEvent, h x hx]

/-!
Poll-loop unfolding lemmas
-/

theorem pollLoop_zero (eb : AGUIEventBuilder) (gen : Nat → String)
    (polls : Nat → Except String BinduTask) (idx : Nat) (lastState : BinduTaskState) :
    pollLoop eb gen polls idx 0 lastState =
      (if isTerminalState lastState then [] else [eb.runError "Polling timeout" none], 0) :=
  rfl

theorem pollLoop_succ_error (eb : AGUIEventBuilder) (gen : Nat → String)
    (polls : Nat → Except String BinduTask) (idx fuel : Nat) (lastState : BinduTaskState)
    (msg : String) (hp : polls idx = .error msg) :
    pollLoop eb gen polls idx (fuel + 1) lastState = ([eb.runError msg none], 1) := by
  unfold pollLoop
  rw [hp]

theorem pollLoop_succ_terminal (eb : AGUIEventBuilder) (gen : Nat → String)
    (polls : Nat → Except String BinduTask) (idx fuel : Nat) (lastState : BinduTaskState)
    (task : BinduTask) (hp : polls idx = .ok task)
    (ht : isTerminalState task.status.state = true) :
    pollLoop eb gen polls idx (fuel + 1) lastState =
      ((if task.status.state = lastState then [] else [eb.stateDelta task.status.state]) ++
        terminalStateEvents eb gen task.status.state task, 1) := by
  unfold pollLoop
  rw [hp]
  simp only [ht, if_true]

theorem pollLoop_succ_nonterminal (eb : AGUIEventBuilder) (gen : Nat → String)
    (polls : Nat → Except String BinduTask) (idx fuel : Nat) (lastState : BinduTaskState)
    (task : BinduTask) (hp : polls idx = .ok task)
    (ht : isTerminalState task.status.state = false) :
    pollLoop eb gen polls idx (fuel + 1) lastState =
      ((if task.status.state = lastState then [] else [eb.stateDelta task.status.state]) ++
        (pollLoop eb gen polls (idx + 1) fuel task.status.state).1,
       (pollLoop eb gen polls (idx + 1) fuel task.status.state).2 + 1) := by
  conv_lhs => unfold pollLoop
  rw [hp]
  simp only [ht, Bool.false_eq_true, if_false]

/-!
Poll-loop invariants
-/

theorem pollLoop_stamped (eb : AGUIEventBuilder) (gen : Nat → String)
    (polls : Nat → Except String BinduTask) :
    ∀ fuel idx lastState, ∀ e ∈ (pollLoop eb gen polls idx fuel lastState).1,
      stampedBy eb e := by
  intro fuel
  induction fuel with
  | zero =>
    intro idx lastState e he
    rw [pollLoop_zero] at he
    split at he
    · simp at he
    · simp only [List.mem_singleton] at he
      subst he; exact ⟨rfl, rfl⟩
  | succ fuel ih =>
    intro idx lastState e he
    cases hp : polls idx with
    | error msg =>
      rw [pollLoop_succ_error eb gen polls idx fuel lastState msg hp] at he
      simp only [List.mem_singleton] at he
      subst he; exact ⟨rfl, rfl⟩
    | ok task =>
      cases ht : isTerminalState task.status.state with
      | true =>
        rw [pollLoop_succ_terminal eb gen polls idx fuel lastState task hp ht] at he
        rcases List.mem_append.mp he with he | he
        · split at he
          · simp at he
          · simp only [List.mem_singleton] at he
            subst he; exact ⟨rfl, rfl⟩
        · exact (terminalStateEvents_props eb gen task.status.state task e he).1
      | false =>
        rw [pollLoop_succ_nonterminal eb gen polls idx fuel lastState task hp ht] at he
        rcases List.mem_append.mp he with he | he
        · split at he
          · simp at he
          · simp only [List.mem_singleton] at he
            subst he; exact ⟨rfl, rfl⟩
        · exact ih (idx + 1) task.status.state e he

theorem pollLoop_ends (eb : AGUIEventBuilder) (gen : Nat → String)
    (polls : Nat → Except String BinduTask) :
    ∀ fuel idx lastState, isTerminalState lastState = false →
      endsWithOneTerminal (pollLoop eb gen polls idx fuel lastState).1 := by
  intro fuel
  induction fuel with
  | zero =>
    intro idx lastState hl
    rw [pollLoop_zero]
    simp only [hl, Bool.false_eq_true, if_false]
    exact endsWithOneTerminal_single _ rfl
  | succ fuel ih =>
    intro idx lastState hl
    cases hp : polls idx with
    | error msg =>
      rw [pollLoop_succ_error eb gen polls idx fuel lastState msg hp]
      exact endsWithOneTerminal_single _ rfl
    | ok task =>
      cases ht : isTerminalState task.status.state with
      | true =>
        rw [pollLoop_succ_terminal eb gen polls idx fuel lastState task hp ht]
        refine endsWithOneTerminal_prepend _ _ ?_
          (terminalStateEvents_ends eb gen task.status.state task ht)
        intro x hx
        split at hx
        · simp at hx
        · simp only [List.mem_singleton] at hx
          subst hx; rfl
      | false =>
        rw [pollLoop_succ_nonterminal eb gen polls idx fuel lastState task hp ht]
        refine endsWithOneTerminal_prepend _ _ ?_ (ih (idx + 1) task.status.state ht)
        intro x hx
        split at hx
        · simp at hx
        · simp only [List.mem_singleton] at hx
          subst hx; rfl

theorem pollLoop_calls_le (eb : AGUIEventBuilder) (gen : Nat → String)
    (polls : Nat → Except String BinduTask) :
    ∀ fuel idx lastState i task, polls i = .ok task →
      isTerminalState task.status.state = true → idx ≤ i →
      (pollLoop eb gen polls idx fuel lastState).2 ≤ i + 1 - idx := by
  intro fuel
  induction fuel with
  | zero =>
    intro idx lastState i task _ _ _
    rw [pollLoop_zero]
    exact Nat.zero_le _
  | succ fuel ih =>
    intro idx lastState i task hpi hti hle
    cases hp : polls idx with
    | error msg =>
      rw [pollLoop_succ_error eb gen polls idx fuel lastState msg hp]
      omega
    | ok task2 =>
      cases ht : isTerminalState task2.status.state with
      | true =>
        rw [pollLoop_succ_terminal eb gen polls idx fuel lastState task2 hp ht]
        omega
      | false =>
        rw [pollLoop_succ_nonterminal eb gen polls idx fuel lastState task2 hp ht]
        have hne : idx ≠ i := by
          intro heq
          subst heq
          rw [hpi] at hp
          cases hp
          rw [hti] at ht
          cases ht
        have hlt : idx + 1 ≤ i := by omega
        have := ih (idx + 1) task2.status.state i task hpi hti hlt
        omega

theorem pollLoop_chain (eb : AGUIEventBuilder) (gen : Nat → String)
    (polls : Nat → Except String BinduTask) :
    ∀ fuel idx lastState,
      List.Chain' (fun a b => a ≠ b)
        (lastState :: deltaStates (pollLoop eb gen polls idx fuel lastState).1) := by
  intro fuel
  induction fuel with
  | zero =>
    intro idx lastState
    rw [pollLoop_zero]
    have : deltaStates (if isTerminalState lastState then []
        else [eb.runError "Polling timeout" none]) = [] := by
      split <;> rfl
    rw [this]
    exact List.chain'_singleton lastState
  | succ fuel ih =>
    intro idx lastState
    cases hp : polls idx with
    | error msg =>
      rw [pollLoop_succ_error eb gen polls idx fuel lastState msg hp]
      exact List.chain'_singleton lastState
    | ok task =>
      cases ht : isTerminalState task.status.state with
      | true =>
        rw [pollLoop_succ_terminal eb gen polls idx fuel lastState task hp ht,
          deltaStates_append]
        rw [deltaStates_eq_nil (terminalStateEvents eb gen task.status.state task)
          (fun e he => (terminalStateEvents_props eb gen task.status.state task e he).2)]
        by_cases heq : task.status.state = lastState
        · rw [if_pos heq]
          exact List.chain'_singleton lastState
        · rw [if_neg heq]
          refine List.chain'_cons.mpr ⟨fun h => heq h.symm, ?_⟩
          exact List.chain'_singleton _
      | false =>
        rw [pollLoop_succ_nonterminal eb gen polls idx fuel lastState task hp ht,
          deltaStates_append]
        by_cases heq : task.status.state = lastState
        · rw [if_pos heq]
          have hnil : deltaStates ([] : List AGUIEvent) = [] := rfl
          rw [hnil, List.nil_append, ← heq]
          exact ih (idx + 1) task.status.state
        · rw [if_neg heq]
          refine List.chain'_cons.mpr ⟨fun h => heq h.symm, ?_⟩
          simpa using ih (idx + 1) task.status.state

theorem pollLoop_noDeltaAfterTerminal (eb : AGUIEventBuilder) (gen : Nat → String)
    (polls : Nat → Except String BinduTask) :
    ∀ fuel idx lastState,
      noDeltaAfterTerminalDelta (pollLoop eb gen polls idx fuel lastState).1 = true := by
  intro fuel
  induction fuel with
  | zero =>
    intro idx lastState
    rw [pollLoop_zero]
    refine noDeltaAfterTerminalDelta_of_none _ ?_
    intro e he
    split at he
    · simp at he
    · simp only [List.mem_singleton] at he
      subst he; rfl
  | succ fuel ih =>
    intro idx lastState
    cases hp : polls idx with
    | error msg =>
      rw [pollLoop_succ_error eb gen polls idx fuel lastState msg hp]
      rfl
    | ok task =>
      cases ht : isTerminalState task.status.state with
      | true =>
        rw [pollLoop_succ_terminal eb gen polls idx fuel lastState task hp ht]
        by_cases heq : task.status.state = lastState
        · rw [if_pos heq, List.nil_append]
          refine noDeltaAfterTerminalDelta_of_none _ ?_
          intro e he
          exact (terminalStateEvents_props eb gen task.status.state task e he).2
        · rw [if_neg heq, List.singleton_append]
          unfold noDeltaAfterTerminalDelta
          rw [if_pos (by simp [isTerminalDeltaEvent, stateOfEvent,
            AGUIEventBuilder.stateDelta, AGUIEventBuilder.base, ht])]
          refine all_not_delta_of_none _ ?_
          intro e he
          exact (terminalStateEvents_props eb gen task.status.state task e he).2
      | false =>
        rw [pollLoop_succ_nonterminal eb gen polls idx fuel lastState task hp ht]
        by_cases heq : task.status.state = lastState
        · rw [if_pos heq, List.nil_append]
          exact ih (idx + 1) task.status.state
        · rw [if_neg heq, List.singleton_append]
          unfold noDeltaAfterTerminalDelta
          rw [if_neg (by simp [isTerminalDeltaEvent, stateOfEvent,
            AGUIEventBuilder.stateDelta, AGUIEventBuilder.base, ht])]
          exact ih (idx + 1) task.status.state

/-!
Background-task and handler lemmas
-/

theorem runBackground_ends (eb : AGUIEventBuilder) (env : RunEnv)
    (msgs : List AGUIMessage) (maxAttempts : Nat) :
    endsWithOneTerminal (runBackground eb env msgs maxAttempts).events := by
  unfold runBackground
  split
  · exact endsWithOneTerminal_single _ rfl
  · split
    · exact endsWithOneTerminal_single _ rfl
    · refine endsWithOneTerminal_prepend [eb.runStarted] _ ?_ ?_
      · intro x hx
        simp only [List.mem_singleton] at hx
        subst hx; rfl
      · exact pollLoop_ends eb env.genMsgId env.polls maxAttempts 0 .submitted rfl

theorem runBackground_stamped (eb : AGUIEventBuilder) (env : RunEnv)
    (msgs : List AGUIMessage) (maxAttempts : Nat) :
    ∀ e ∈ (runBackground eb env msgs maxAttempts).events, stampedBy eb e := by
  intro e he
  unfold runBackground at he
  split at he
  · simp only [List.mem_singleton] at he
    subst he; exact ⟨rfl, rfl⟩
  · split at he
    · simp only [List.mem_singleton] at he
      subst he; exact ⟨rfl, rfl⟩
    · simp only [List.mem_cons] at he
      rcases he with rfl | he
      · exact ⟨rfl, rfl⟩
      · exact pollLoop_stamped eb env.genMsgId env.polls maxAttempts 0 .submitted e he

theorem runBackground_chain (eb : AGUIEventBuilder) (env : RunEnv)
    (msgs : List AGUIMessage) (maxAttempts : Nat) :
    List.Chain' (fun a b => a ≠ b)
      (BinduTaskState.submitted :: deltaStates (runBackground eb env msgs maxAttempts).events) := by
  unfold runBackground
  split
  · exact List.chain'_singleton _
  · split
    · exact List.chain'_singleton _
    · exact pollLoop_chain eb env.genMsgId env.polls maxAttempts 0 .submitted

theorem runBackground_noDelta (eb : AGUIEventBuilder) (env : RunEnv)
    (msgs : List AGUIMessage) (maxAttempts : Nat) :
    noDeltaAfterTerminalDelta (runBackground eb env msgs maxAttempts).events = true := by
  unfold runBackground
  split
  · rfl
  · split
    · rfl
    · exact pollLoop_noDeltaAfterTerminal eb env.genMsgId env.polls maxAttempts 0 .submitted

theorem runBackground_calls (eb : AGUIEventBuilder) (env : RunEnv)
    (msgs : List AGUIMessage) (maxAttempts i : Nat) (task : BinduTask)
    (hpi : env.polls i = .ok task) (hti : isTerminalState task.status.state = true) :
    (runBackground eb env msgs maxAttempts).getTaskCalls ≤ i + 1 := by
  unfold runBackground
  split
  · exact Nat.zero_le _
  · split
    · exact Nat.zero_le _
    · exact pollLoop_calls_le eb env.genMsgId env.polls maxAttempts 0 .submitted i task
        hpi hti (Nat.zero_le i)

theorem handleAGUIRun_stream_inv (body : AGUIRunRequest) (config : BridgeConfig)
    (env : RunEnv) (tr : RunTrace)
    (h : handleAGUIRun body config env = .stream tr) :
    ∃ msgs, body.messages = some msgs ∧ msgs.isEmpty = false ∧
      optStringTruthy body.thread_id = true ∧
      tr = runBackground
        { threadId := body.thread_id.getD "", runId := resolveTaskId body.run_id env.uuidTask }
        env msgs
        (resolveMaxPollAttempts body config (resolvePollIntervalMs body config)) := by
  unfold handleAGUIRun at h
  split at h
  · cases h
  · rename_i hthread
    have hthread2 : optStringTruthy body.thread_id = true := by
      revert hthread
      cases optStringTruthy body.thread_id <;> simp
    split at h
    · cases h
    · rename_i msgs hm
      split at h
      · cases h
      · rename_i hempty
        injection h with h
        exact ⟨msgs, hm, by simpa using hempty, hthread2, h.symm⟩

/-!
Artifact-expansion characterization lemmas
-/

theorem enumFrom_cons_eq {α : Type} (n : Nat) (a : α) (l : List α) :
    List.enumFrom n (a :: l) = (n, a) :: List.enumFrom (n + 1) l :=
  rfl

theorem enumFrom_append_eq {α : Type} (xs ys : List α) :
    ∀ n, List.enumFrom n (xs ++ ys) =
      List.enumFrom n xs ++ List.enumFrom (n + xs.length) ys := by
  induction xs with
  | nil => intro n; simp [List.enumFrom]
  | cons a rest ih =>
    intro n
    rw [List.cons_append, enumFrom_cons_eq, enumFrom_cons_eq, ih (n + 1),
      List.cons_append]
    have harith : n + 1 + rest.length = n + (rest.length + 1) := by omega
    rw [harith]
    rfl

theorem emitPartEvents_cons_text_some (eb : AGUIEventBuilder) (gen : Nat → String)
    (ctr : Nat) (t : String) (rest : List BinduArtifactPart) :
    emitPartEvents eb gen ctr ({ kind := .text, text := some t } :: rest) =
      if t = "" then emitPartEvents eb gen ctr rest
      else (tripleEvents eb (gen ctr) t ++ (emitPartEvents eb gen (ctr + 1) rest).1,
        (emitPartEvents eb gen (ctr + 1) rest).2) :=
  rfl

theorem emitPartEvents_cons_skip (eb : AGUIEventBuilder) (gen : Nat → String)
    (ctr : Nat) (p : BinduArtifactPart) (rest : List BinduArtifactPart)
    (hp : selectTextPart p = none) :
    emitPartEvents eb gen ctr (p :: rest) = emitPartEvents eb gen ctr rest := by
  obtain ⟨k, txt⟩ := p
  cases k with
  | text =>
    cases txt with
    | none => rfl
    | some t =>
      have ht : t = "" := by
        by_contra hne
        simp [selectTextPart, hne] at hp
      subst ht
      rfl
  | file => rfl
  | data => rfl

theorem emitPartEvents_eq (eb : AGUIEventBuilder) (gen : Nat → String)
    (ps : List BinduArtifactPart) : ∀ ctr,
    emitPartEvents eb gen ctr ps =
      (((ps.filterMap selectTextPart).enumFrom ctr).flatMap
        (fun it => tripleEvents eb (gen it.1) it.2),
       ctr + (ps.filterMap selectTextPart).length) := by
  induction ps with
  | nil => intro ctr; rfl
  | cons p rest ih =>
    intro ctr
    cases hp : selectTextPart p with
    | none =>
      rw [emitPartEvents_cons_skip eb gen ctr p rest hp, ih ctr,
        List.filterMap_cons_none hp]
    | some t =>
      obtain ⟨k, txt⟩ := p
      cases k with
      | text =>
        cases txt with
        | none => cases hp
        | some t2 =>
          have ht2 : ¬ t2 = "" := by
            intro h
            rw [h] at hp
            simp [selectTextPart] at hp
          have htt : t = t2 := by
            simp [selectTextPart, ht2] at hp
            exact hp.symm
          subst htt
          rw [emitPartEvents_cons_text_some, if_neg ht2, ih (ctr + 1),
            List.filterMap_cons_some hp, enumFrom_cons_eq]
          simp only [List.flatMap_cons, List.length_cons, Prod.mk.injEq]
          exact ⟨trivial, by omega⟩
      | file => simp [selectTextPart] at hp
      | data => simp [selectTextPart] at hp

theorem emitArtifactEvents_eq (eb : AGUIEventBuilder) (gen : Nat → String)
    (arts : List BinduArtifact) : ∀ ctr,
    emitArtifactEvents eb gen ctr arts =
      (((selectedTextsOfArtifacts arts).enumFrom ctr).flatMap
        (fun it => tripleEvents eb (gen it.1) it.2),
       ctr + (selectedTextsOfArtifacts arts).length) := by
  induction arts with
  | nil => intro ctr; rfl
  | cons a rest ih =>
    intro ctr
    show ((emitPartEvents eb gen ctr a.parts).1 ++
        (emitArtifactEvents eb gen (emitPartEvents eb gen ctr a.parts).2 rest).1,
      (emitArtifactEvents eb gen (emitPartEvents eb gen ctr a.parts).2 rest).2) = _
    rw [emitPartEvents_eq eb gen a.parts ctr]
    rw [ih (ctr + (a.parts.filterMap selectTextPart).length)]
    have hsel : selectedTextsOfArtifacts (a :: rest) =
        a.parts.filterMap selectTextPart ++ selectedTextsOfArtifacts rest := by
      simp [selectedTextsOfArtifacts, List.flatMap_cons]
    rw [hsel, enumFrom_append_eq, List.flatMap_append, List.length_append]
    simp only [Prod.mk.injEq]
    exact ⟨trivial, by omega⟩

/-!
Claim theorems
-/

/-- Claim C1: for every run whose background task runs to completion and
whose sink writes do not fail, the event stream carries exactly one
terminal event — one run-finished or one run-error, never both and never
neither — and it is the last event emitted before the stream is closed,
on every path (success, failed/canceled state, mid-loop query failure,
submit failure, zero-user-message runs, polling exhaustion). -/
theorem run_stream_terminates_once (body : AGUIRunRequest) (config : BridgeConfig)
    (env : RunEnv) (tr : RunTrace)
    (h : handleAGUIRun body config env = .stream tr) :
    endsWithOneTerminal tr.events := by
  obtain ⟨msgs, _, _, _, rfl⟩ := handleAGUIRun_stream_inv body config env tr h
  exact runBackground_ends _ env msgs _

/-- Witness for C1: the happy-path scenario run satisfies the terminal
event shape. -/
theorem run_stream_terminates_once_witness :
    endsWithOneTerminal trace4.events :=
  run_stream_terminates_once body4 defaultBridgeConfig env4 trace4 (by decide)

/-- Counterexample to C2 as stated: a request with a non-empty thread id
and a non-empty messages list whose only entry has role assistant is not
rejected with a 4xx validation error; the handler opens a stream and
reports the violation as a stream run-error event. -/
theorem validation_userRole_counterexample :
    handleAGUIRun assistantOnlyBody defaultBridgeConfig idleEnv =
      .stream
        { events := [(AGUIEventBuilder.mk "t" "r").runError "No user messages to send" none],
          submitCalled := false, getTaskCalls := 0 } := by
  decide

/-- Claim C2 (amended): only a falsy (missing or empty) thread id and a
missing or empty messages list are rejected synchronously with a 400
validation error before any stream is opened; a request with messages but
no user-role entry passes validation (it is reported as a stream event,
see C3). -/
theorem validation_sync_rejections (body : AGUIRunRequest) (config : BridgeConfig)
    (env : RunEnv) :
    (optStringTruthy body.thread_id = false →
      handleAGUIRun body config env = .validationError "thread_id is required" 400) ∧
    (optStringTruthy body.thread_id = true → body.messages = none →
      handleAGUIRun body config env =
        .validationError "messages array is required and cannot be empty" 400) ∧
    (optStringTruthy body.thread_id = true → body.messages = some [] →
      handleAGUIRun body config env =
        .validationError "messages array is required and cannot be empty" 400) := by
  refine ⟨?_, ?_, ?_⟩
  · intro hf
    unfold handleAGUIRun
    rw [if_pos hf]
  · intro ht hm
    unfold handleAGUIRun
    rw [if_neg (by simp [ht])]
    simp only [hm]
  · intro ht hm
    unfold handleAGUIRun
    rw [if_neg (by simp [ht])]
    simp only [hm]
    rfl

/-- Witness for C2: a request with no thread id is rejected with the 400
validation error. -/
theorem validation_sync_rejections_witness :
    handleAGUIRun noThreadBody defaultBridgeConfig idleEnv =
      .validationError "thread_id is required" 400 :=
  (validation_sync_rejections noThreadBody defaultBridgeConfig idleEnv).1 rfl

/-- Claim C3: a request passing validation whose messages contain zero
user-role entries never invokes the remote submit, never emits
run-started, and its opened stream contains exactly one run-error event
before closing. -/
theorem zero_user_messages_trace (body : AGUIRunRequest) (config : BridgeConfig)
    (env : RunEnv) (msgs : List AGUIMessage)
    (ht : optStringTruthy body.thread_id = true)
    (hm : body.messages = some msgs) (hne : msgs.isEmpty = false)
    (hu : msgs.filter isUserMessage = []) :
    handleAGUIRun body config env =
      .stream
        { events := [(AGUIEventBuilder.mk (body.thread_id.getD "")
            (resolveTaskId body.run_id env.uuidTask)).runError "No user messages to send" none],
          submitCalled := false, getTaskCalls := 0 } := by
  unfold handleAGUIRun
  rw [if_neg (by simp [ht])]
  simp only [hm]
  rw [if_neg (by simp [hne])]
  unfold runBackground
  rw [hu]
  rfl

/-- Witness for C3: the assistant-only request yields exactly the single
run-error stream with no submit call. -/
theorem zero_user_messages_trace_witness :
    handleAGUIRun assistantOnlyBody defaultBridgeConfig idleEnv =
      .stream
        { events := [(AGUIEventBuilder.mk (assistantOnlyBody.thread_id.getD "")
            (resolveTaskId assistantOnlyBody.run_id idleEnv.uuidTask)).runError "No user messages to send" none],
          submitCalled := false, getTaskCalls := 0 } :=
  zero_user_messages_trace assistantOnlyBody defaultBridgeConfig idleEnv
    [{ role := .assistant, content := "x" }] rfl rfl rfl rfl

/-- Claim C4: on the request `{thread_id: "t1", messages: [{role:"user",
content:"hi"}]}` with submit succeeding, first poll `working`, second poll
`completed` with one artifact holding one text part `"hello"`, the emitted
sequence is exactly RUN_STARTED, STATE_DELTA(working),
STATE_DELTA(completed), TEXT_MESSAGE_START, TEXT_MESSAGE_CONTENT("hello"),
TEXT_MESSAGE_END, RUN_FINISHED (with two status queries and the submit
call made). -/
theorem scenario_happy_path_sequence :
    handleAGUIRun body4 defaultBridgeConfig env4 = .stream trace4 := by
  decide

/-- Claim C5: once a poll observes a terminal state no further getTask
call is issued; state-deltas are emitted only on a change from the
last-observed state initialized to submitted, so the delta sequence
prefixed with submitted has pairwise-distinct neighbours; and after a
terminal-state delta no further state-delta is emitted. -/
theorem polling_stops_and_deltas_distinct (body : AGUIRunRequest)
    (config : BridgeConfig) (env : RunEnv) (tr : RunTrace)
    (h : handleAGUIRun body config env = .stream tr) :
    (∀ i task, env.polls i = .ok task → isTerminalState task.status.state = true →
      tr.getTaskCalls ≤ i + 1) ∧
    List.Chain' (fun a b => a ≠ b)
      (BinduTaskState.submitted :: deltaStates tr.events) ∧
    noDeltaAfterTerminalDelta tr.events = true := by
  obtain ⟨msgs, _, _, _, rfl⟩ := handleAGUIRun_stream_inv body config env tr h
  refine ⟨?_, runBackground_chain _ env msgs _, runBackground_noDelta _ env msgs _⟩
  intro i task hpi hti
  exact runBackground_calls _ env msgs _ i task hpi hti

/-- Witness for C5 on the happy-path scenario: two status calls for a
terminal answer at poll index 1, distinct consecutive deltas, and no
delta after the terminal delta. -/
theorem polling_stops_and_deltas_distinct_witness :
    trace4.getTaskCalls ≤ 1 + 1 ∧
    List.Chain' (fun a b => a ≠ b)
      (BinduTaskState.submitted :: deltaStates trace4.events) ∧
    noDeltaAfterTerminalDelta trace4.events = true := by
  obtain ⟨h1, h2, h3⟩ :=
    polling_stops_and_deltas_distinct body4 defaultBridgeConfig env4 trace4 (by decide)
  exact ⟨h1 1 completedTask rfl rfl, h2, h3⟩

/-- Counterexample to C6 as stated: the request supplying `timeout_ms = 0`
resolves the maximum poll attempts to the process default (120), not to
`ceil(0 / interval) = 0`, because the source tests JS truthiness. -/
theorem timeout_zero_counterexample :
    timeoutZeroBody.config.bind (fun c => c.timeout_ms) = some 0 ∧
    resolveMaxPollAttempts timeoutZeroBody defaultBridgeConfig
        (resolvePollIntervalMs timeoutZeroBody defaultBridgeConfig) ≠
      ceilDivNat 0 (resolvePollIntervalMs timeoutZeroBody defaultBridgeConfig) :=
  ⟨rfl, by decide⟩

/-- Claim C6 (amended): the effective poll interval is the request's
`polling_interval_ms` when present (nullish coalescing) else the process
default; when the request supplies a nonzero `timeout_ms` the maximum
attempt count is `ceil(timeout_ms / pollIntervalMs)`; with `timeout_ms`
absent or zero (falsy) the process default `maxPollAttempts` is used. -/
theorem polling_config_resolution (body : AGUIRunRequest) (config : BridgeConfig) :
    resolvePollIntervalMs body config =
      (body.config.bind fun c => c.polling_interval_ms).getD config.pollIntervalMs ∧
    (∀ t, body.config.bind (fun c => c.timeout_ms) = some t → t ≠ 0 →
      resolveMaxPollAttempts body config (resolvePollIntervalMs body config) =
        ceilDivNat t (resolvePollIntervalMs body config)) ∧
    (body.config.bind (fun c => c.timeout_ms) = none →
      resolveMaxPollAttempts body config (resolvePollIntervalMs body config) =
        config.maxPollAttempts) ∧
    (body.config.bind (fun c => c.timeout_ms) = some 0 →
      resolveMaxPollAttempts body config (resolvePollIntervalMs body config) =
        config.maxPollAttempts) := by
  refine ⟨rfl, ?_, ?_, ?_⟩
  · intro t h hne
    unfold resolveMaxPollAttempts
    rw [h]
    exact if_neg hne
  · intro h
    unfold resolveMaxPollAttempts
    rw [h]
  · intro h
    unfold resolveMaxPollAttempts
    rw [h]
    exact if_pos rfl

/-- Witness for C6: interval 250 and timeout 1000 give
`ceil(1000/250) = 4` attempts. -/
theorem polling_config_resolution_witness :
    resolveMaxPollAttempts timeoutBody defaultBridgeConfig
        (resolvePollIntervalMs timeoutBody defaultBridgeConfig) =
      ceilDivNat 1000 (resolvePollIntervalMs timeoutBody defaultBridgeConfig) ∧
    ceilDivNat 1000 (resolvePollIntervalMs timeoutBody defaultBridgeConfig) = 4 :=
  ⟨(polling_config_resolution timeoutBody defaultBridgeConfig).2.1 1000 rfl
    (by decide), by decide⟩

/-- Claim C7: every event of a run's stream carries the run's resolved
thread id as `thread_id` and the run's resolved task id as `run_id`, with
no exceptions. -/
theorem events_carry_run_identity (body : AGUIRunRequest) (config : BridgeConfig)
    (env : RunEnv) (tr : RunTrace)
    (h : handleAGUIRun body config env = .stream tr) :
    ∀ e ∈ tr.events, e.thread_id = body.thread_id.getD "" ∧
      e.run_id = resolveTaskId body.run_id env.uuidTask := by
  obtain ⟨msgs, _, _, _, rfl⟩ := handleAGUIRun_stream_inv body config env tr h
  intro e he
  exact runBackground_stamped _ env msgs _ e he

/-- Witness for C7: the run-started event of the scenario run carries the
resolved pair. -/
theorem events_carry_run_identity_witness :
    (builder0.runStarted).thread_id = body4.thread_id.getD "" ∧
    (builder0.runStarted).run_id = resolveTaskId body4.run_id env4.uuidTask :=
  events_carry_run_identity body4 defaultBridgeConfig env4 trace4 (by decide)
    builder0.runStarted (by decide)

/-- Counterexample to C8 as stated: the sink's `close()` is not
idempotent-safe by itself — after a prior close puts the writer into the
closed state, a second `close()` rejects. -/
theorem sse_close_raises_counterexample :
    writerClose WriterState.writable = Except.ok WriterState.closed ∧
    sseClose WriterState.closed = Except.error "Writer is closed" :=
  ⟨rfl, rfl⟩

/-- Claim C8 (amended): the sink's raw `close()` propagates writer
rejections; the idempotent-safety holds one level up, at the orchestrator's
guarded close in the handler's `finally` block, which swallows close
failures (so it never raises, in any writer state), closes a writable
channel, and is idempotent. -/
theorem guarded_close_idempotent :
    ∀ w : WriterState, finallyClose (finallyClose w) = finallyClose w ∧
      finallyClose WriterState.writable = WriterState.closed := by
  intro w
  cases w <;> exact ⟨rfl, rfl⟩

/-- Claim C9: a request whose `run_id` is present but empty is treated as
if `run_id` were absent — the generated identifier becomes the task id
and is stamped as `run_id` on every event — because the source resolves
with JS truthiness. -/
theorem empty_run_id_generates_uuid (body : AGUIRunRequest) (config : BridgeConfig)
    (env : RunEnv) (tr : RunTrace) (hid : body.run_id = some "")
    (h : handleAGUIRun body config env = .stream tr) :
    resolveTaskId body.run_id env.uuidTask = env.uuidTask ∧
    ∀ e ∈ tr.events, e.run_id = env.uuidTask := by
  have hres : resolveTaskId body.run_id env.uuidTask = env.uuidTask := by
    rw [hid]
    rfl
  refine ⟨hres, ?_⟩
  obtain ⟨msgs, _, _, _, rfl⟩ := handleAGUIRun_stream_inv body config env tr h
  intro e he
  have hst := (runBackground_stamped _ env msgs _ e he).2
  rw [hst]
  exact hres

/-- Witness for C9: with `run_id = ""` the scenario run uses the
generated id on its events. -/
theorem empty_run_id_generates_uuid_witness :
    resolveTaskId emptyRunIdBody.run_id env4.uuidTask = env4.uuidTask ∧
    (builder0.runFinished).run_id = env4.uuidTask := by
  obtain ⟨h1, h2⟩ := empty_run_id_generates_uuid emptyRunIdBody defaultBridgeConfig
    env4 trace4 rfl (by decide)
  exact ⟨h1, h2 builder0.runFinished (by decide)⟩

/-- Claim C10: expanding a completed task's artifacts produces exactly one
started/content/ended triple per part whose kind is text with a present,
non-empty text — in artifact order, with the n-th selected part using the
n-th generated message id — and parts of kind file or data, text parts
with absent or empty text, and tasks with no artifacts produce no events. -/
theorem artifact_text_selection (eb : AGUIEventBuilder) (gen : Nat → String)
    (task : BinduTask) :
    emitArtifactsAsMessages eb gen task =
      (claimedArtifactTexts task).enum.flatMap
        (fun it => tripleEvents eb (gen it.1) it.2) ∧
    (task.artifacts = none → emitArtifactsAsMessages eb gen task = []) ∧
    (task.artifacts = some [] → emitArtifactsAsMessages eb gen task = []) := by
  refine ⟨?_, ?_, ?_⟩
  · cases harts : task.artifacts with
    | none =>
      rw [emitArtifactsAsMessages_eq_none eb gen task harts]
      simp [claimedArtifactTexts, selectedTextsOfArtifacts, harts, List.enum]
    | some arts =>
      rw [emitArtifactsAsMessages_eq_some eb gen task arts harts]
      by_cases hempty : arts.isEmpty
      · have hnil : arts = [] := List.isEmpty_iff.mp hempty
        subst hnil
        simp [claimedArtifactTexts, selectedTextsOfArtifacts, harts, List.enum]
      · rw [if_neg hempty]
        have hmain := congrArg Prod.fst (emitArtifactEvents_eq eb gen arts 0)
        simp only at hmain
        rw [hmain]
        have hclaim : claimedArtifactTexts task = selectedTextsOfArtifacts arts := by
          simp [claimedArtifactTexts, harts]
        rw [hclaim]
        rfl
  · intro h
    exact emitArtifactsAsMessages_eq_none eb gen task h
  · intro h
    rw [emitArtifactsAsMessages_eq_some eb gen task [] h]
    rfl

/-- Witness for C10: a task with no artifacts yields no message events. -/
theorem artifact_text_selection_witness :
    emitArtifactsAsMessages builder0 gen0 workingTask = [] :=
  (artifact_text_selection builder0 gen0 workingTask).2.1 rfl

end AGUIBridge
